import Mathlib

/-
Verification of the twitter_ml classifier-building program.

The driver (src/twitter_ml/classify/build_classifiers.py) is embedded
directly from its source.  The classifier core (Sentiment / VotingEnsemble /
ClassifierAdapter / MovieReviews feature extraction) lives in modules that are
not part of the given sources; those parts are modelled from the spec, and
each such definition says so in its doc comment.
-/

set_option autoImplicit false

namespace TwitterML

/-! ## Core data model -/

abbrev Label := String

abbrev Vec := List Bool

/-- Modelled from the spec: a trained underlying model maps a feature vector
to a label.  The concrete learning algorithms are opaque to the ensemble. -/
abbrev Model := Vec → Label

inductive ClassifyError where
  | notTrainedError
  | emptyEnsembleError
  | configError
  deriving DecidableEq

/-- Modelled from the spec: a ClassifierAdapter owns one underlying model
(`none` while untrained) plus a stable algorithm kind used for reporting. -/
structure ClassifierAdapter where
  kind : String
  trained : Option Model

/-- Modelled from the spec: adapters are created untrained from EnsembleConfig. -/
def mkAdapter (kind : String) : ClassifierAdapter :=
  ⟨kind, none⟩

/-- Modelled from the spec: predict on an untrained adapter fails with a
NotTrainedError rather than producing a default or arbitrary label. -/
def ClassifierAdapter.predict (c : ClassifierAdapter) (v : Vec) : Except ClassifyError Label :=
  match c.trained with
  | none => .error .notTrainedError
  | some m => .ok (m v)

/-- Modelled from the spec: the ensemble owns the name → adapter mapping; a
Python dict with insertion order is embedded as an association list. -/
structure VotingEnsemble where
  sub_classifiers : List (String × ClassifierAdapter)

/-! ## Plurality vote with first-declared tie-break -/

/-- Modelled from the spec: scan the remaining candidates keeping the current
best, replacing it only on a strictly larger score, so the first candidate
achieving the maximum wins. -/
def argmaxFrom {α : Type} (f : α → Nat) (best : α) : List α → α
  | [] => best
  | x :: xs => if f best < f x then argmaxFrom f x xs else argmaxFrom f best xs

/-- Modelled from the spec: the label receiving the most votes wins; ties are
broken in favour of the vote cast by the earliest-declared sub-classifier. -/
def pluralityVote : List Label → Option Label
  | [] => none
  | v :: vs => some (argmaxFrom (fun l => (v :: vs).count l) v vs)

/-- Modelled from the spec: poll each sub-classifier in declaration order for
its single-vector prediction; any failure propagates. -/
def predictAll : List (String × ClassifierAdapter) → Vec → Except ClassifyError (List Label)
  | [], _ => .ok []
  | (_, c) :: rest, v =>
    match c.predict v with
    | .error e => .error e
    | .ok l =>
      match predictAll rest v with
      | .error e => .error e
      | .ok ls => .ok (l :: ls)

/-- Modelled from the spec: an empty ensemble fails with EmptyEnsembleError;
otherwise the sub-classifier votes are aggregated by plurality. -/
def VotingEnsemble.predict (e : VotingEnsemble) (v : Vec) : Except ClassifyError Label :=
  if e.sub_classifiers.isEmpty then .error .emptyEnsembleError
  else
    match predictAll e.sub_classifiers v with
    | .error err => .error err
    | .ok votes =>
      match pluralityVote votes with
      | none => .error .emptyEnsembleError
      | some w => .ok w

/-! ### Properties of the vote aggregation -/

theorem argmaxFrom_spec {α : Type} (f : α → Nat) (l : List α) :
    ∀ b : α, ∃ pre post,
      b :: l = pre ++ argmaxFrom f b l :: post ∧
      (∀ x ∈ pre, f x < f (argmaxFrom f b l)) ∧
      (∀ x ∈ b :: l, f x ≤ f (argmaxFrom f b l)) := by
  induction l with
  | nil =>
    intro b
    exact ⟨[], [], rfl, by simp, by simp [argmaxFrom]⟩
  | cons x xs ih =>
    intro b
    by_cases hbx : f b < f x
    · obtain ⟨pre, post, hdec, hpre, hmax⟩ := ih x
      rw [argmaxFrom, if_pos hbx]
      refine ⟨b :: pre, post, ?_, ?_, ?_⟩
      · rw [List.cons_append, ← hdec]
      · intro q hq
        rcases List.mem_cons.mp hq with hq | hq
        · rw [hq]
          exact lt_of_lt_of_le hbx (hmax x (List.mem_cons_self x xs))
        · exact hpre q hq
      · intro q hq
        rcases List.mem_cons.mp hq with hq | hq
        · rw [hq]
          exact le_of_lt (lt_of_lt_of_le hbx (hmax x (List.mem_cons_self x xs)))
        · exact hmax q hq
    · obtain ⟨pre, post, hdec, hpre, hmax⟩ := ih b
      rw [argmaxFrom, if_neg hbx]
      have hxle : f x ≤ f (argmaxFrom f b xs) :=
        le_trans (Nat.le_of_not_lt hbx) (hmax b (List.mem_cons_self b xs))
      cases pre with
      | nil =>
        have hb : b = argmaxFrom f b xs := by
          simpa using congrArg (fun t => t.head?) hdec
        refine ⟨[], x :: xs, ?_, by simp, ?_⟩
        · rw [List.nil_append, ← hb]
        · intro q hq
          rcases List.mem_cons.mp hq with hq | hq
          · rw [hq]
            exact hmax b (List.mem_cons_self b xs)
          · rcases List.mem_cons.mp hq with hq | hq
            · rw [hq]
              exact hxle
            · exact hmax q (List.mem_cons_of_mem b hq)
      | cons p ps =>
        rw [List.cons_append] at hdec
        obtain ⟨hpb, htail⟩ := List.cons.inj hdec
        have hbmem : b ∈ p :: ps := by
          rw [← hpb]
          exact List.mem_cons_self b ps
        have hblt : f b < f (argmaxFrom f b xs) := hpre b hbmem
        refine ⟨b :: x :: ps, post, ?_, ?_, ?_⟩
        · rw [List.cons_append, List.cons_append, ← htail]
        · intro q hq
          rcases List.mem_cons.mp hq with hq | hq
          · rw [hq]
            exact hblt
          · rcases List.mem_cons.mp hq with hq | hq
            · rw [hq]
              exact lt_of_le_of_lt (Nat.le_of_not_lt hbx) hblt
            · exact hpre q (List.mem_cons_of_mem p hq)
        · intro q hq
          rcases List.mem_cons.mp hq with hq | hq
          · rw [hq]
            exact hmax b (List.mem_cons_self b xs)
          · rcases List.mem_cons.mp hq with hq | hq
            · rw [hq]
              exact hxle
            · exact hmax q (List.mem_cons_of_mem b hq)

theorem first_occurrence_unique {α : Type} :
    ∀ (pre : List α) (a : α) (post pre' : List α) (a' : α) (post' : List α),
      pre ++ a :: post = pre' ++ a' :: post' → a ∉ pre' → a' ∉ pre → a = a' := by
  intro pre
  induction pre with
  | nil =>
    intro a post pre' a' post' heq ha ha'
    cases pre' with
    | nil =>
      rw [List.nil_append, List.nil_append] at heq
      exact (List.cons.inj heq).1
    | cons c cs =>
      rw [List.nil_append, List.cons_append] at heq
      exfalso
      apply ha
      rw [← (List.cons.inj heq).1]
      exact List.mem_cons_self a cs
  | cons p ps ih =>
    intro a post pre' a' post' heq ha ha'
    cases pre' with
    | nil =>
      rw [List.cons_append, List.nil_append] at heq
      exfalso
      apply ha'
      rw [← (List.cons.inj heq).1]
      exact List.mem_cons_self p ps
    | cons c cs =>
      rw [List.cons_append, List.cons_append] at heq
      have htail := (List.cons.inj heq).2
      exact ih a post cs a' post' htail (fun h => ha (List.mem_cons_of_mem c h))
        (fun h => ha' (List.mem_cons_of_mem p h))

theorem predictAll_length (v : Vec) :
    ∀ (subs : List (String × ClassifierAdapter)) (r : List Label),
      predictAll subs v = .ok r → r.length = subs.length := by
  intro subs
  induction subs with
  | nil =>
    intro r h
    simp only [predictAll] at h
    cases h
    rfl
  | cons s rest ih =>
    intro r h
    obtain ⟨name, c⟩ := s
    simp only [predictAll] at h
    cases hc : c.predict v with
    | error e => rw [hc] at h; cases h
    | ok l =>
      rw [hc] at h
      cases hrest : predictAll rest v with
      | error e => rw [hrest] at h; cases h
      | ok ls =>
        rw [hrest] at h
        cases h
        simp [ih ls hrest]

theorem pluralityVote_spec (votes : List Label) (w : Label)
    (h : pluralityVote votes = some w) :
    ∃ pre post, votes = pre ++ w :: post ∧
      (∀ x ∈ pre, votes.count x < votes.count w) ∧
      (∀ x ∈ votes, votes.count x ≤ votes.count w) := by
  cases votes with
  | nil => simp [pluralityVote] at h
  | cons v vs =>
    simp only [pluralityVote, Option.some.injEq] at h
    obtain ⟨pre, post, hdec, hpre, hmax⟩ :=
      argmaxFrom_spec (fun l => (v :: vs).count l) vs v
    rw [h] at hdec hpre hmax
    exact ⟨pre, post, hdec, hpre, hmax⟩

/-- C1: whenever one label is predicted by strictly more sub-classifiers than
any other label, VotingEnsemble.predict returns that label. -/
theorem votingEnsemble_predict_plurality (e : VotingEnsemble) (v : Vec)
    (votes : List Label) (a : Label)
    (hall : predictAll e.sub_classifiers v = .ok votes)
    (hmem : a ∈ votes)
    (hstrict : ∀ b ∈ votes, b ≠ a → votes.count b < votes.count a) :
    e.predict v = .ok a := by
  have hvne : votes ≠ [] := List.ne_nil_of_mem hmem
  have hsubne : e.sub_classifiers ≠ [] := by
    intro hnil
    apply hvne
    have := predictAll_length v e.sub_classifiers votes hall
    rw [hnil] at this
    exact List.eq_nil_of_length_eq_zero this
  rw [VotingEnsemble.predict, if_neg (by simp [List.isEmpty_iff, hsubne]), hall]
  cases hvote : pluralityVote votes with
  | none =>
    exfalso
    cases votes with
    | nil => exact hvne rfl
    | cons x xs => simp [pluralityVote] at hvote
  | some w =>
    obtain ⟨pre, post, hdec, hpre, hmax⟩ := pluralityVote_spec votes w hvote
    have hwmem : w ∈ votes := by
      rw [hdec]
      exact List.mem_append_right pre (List.mem_cons_self w post)
    have hwa : w = a := by
      by_contra hne
      exact absurd (hmax a hmem) (Nat.not_le_of_lt (hstrict w hwmem hne))
    show (match pluralityVote votes with
      | none => Except.error ClassifyError.emptyEnsembleError
      | some w => Except.ok w) = Except.ok a
    rw [hvote]
    exact congrArg Except.ok hwa

def adapterConst (kind : String) (l : Label) : ClassifierAdapter :=
  ⟨kind, some (fun _ => l)⟩

def ensembleAAB : VotingEnsemble :=
  ⟨[("c1", adapterConst "bayesian" "A"), ("c2", adapterConst "margin" "A"),
    ("c3", adapterConst "decision_tree" "B")]⟩

/-- C1 witness: three sub-classifiers voting A, A, B yield A. -/
theorem votingEnsemble_predict_plurality_witness :
    ensembleAAB.predict [true] = .ok "A" :=
  votingEnsemble_predict_plurality ensembleAAB [true] ["A", "A", "B"] "A"
    rfl (by decide) (by decide)

/-- C2: when two or more labels tie for the maximum number of votes, predict
returns the tied label cast by the earliest-declared sub-classifier. -/
theorem votingEnsemble_predict_tiebreak (e : VotingEnsemble) (v : Vec)
    (votes pre post : List Label) (a : Label)
    (hall : predictAll e.sub_classifiers v = .ok votes)
    (hdec : votes = pre ++ a :: post)
    (hmax : ∀ b ∈ votes, votes.count b ≤ votes.count a)
    (hfirst : ∀ b ∈ pre, votes.count b < votes.count a)
    (htie : ∃ b ∈ votes, b ≠ a ∧ votes.count b = votes.count a) :
    e.predict v = .ok a := by
  have hamem : a ∈ votes := by
    rw [hdec]
    exact List.mem_append_right pre (List.mem_cons_self a post)
  have hvne : votes ≠ [] := List.ne_nil_of_mem hamem
  have hsubne : e.sub_classifiers ≠ [] := by
    intro hnil
    apply hvne
    have := predictAll_length v e.sub_classifiers votes hall
    rw [hnil] at this
    exact List.eq_nil_of_length_eq_zero this
  rw [VotingEnsemble.predict, if_neg (by simp [List.isEmpty_iff, hsubne]), hall]
  cases hvote : pluralityVote votes with
  | none =>
    exfalso
    cases votes with
    | nil => exact hvne rfl
    | cons x xs => simp [pluralityVote] at hvote
  | some w =>
    obtain ⟨pre', post', hdec', hpre', hmax'⟩ := pluralityVote_spec votes w hvote
    have hwmem : w ∈ votes := by
      rw [hdec']
      exact List.mem_append_right pre' (List.mem_cons_self w post')
    have hcnt : votes.count w = votes.count a :=
      Nat.le_antisymm (hmax w hwmem) (hmax' a hamem)
    have hanp : a ∉ pre' := by
      intro hin
      exact absurd (hcnt ▸ hpre' a hin) (lt_irrefl _)
    have hwnp : w ∉ pre := by
      intro hin
      exact absurd (hcnt ▸ hfirst w hin) (lt_irrefl _)
    have hwa := first_occurrence_unique pre' w post' pre a post
      (by rw [← hdec', ← hdec]) hwnp hanp
    show (match pluralityVote votes with
      | none => Except.error ClassifyError.emptyEnsembleError
      | some w => Except.ok w) = Except.ok a
    rw [hvote]
    exact congrArg Except.ok hwa

def ensembleAB : VotingEnsemble :=
  ⟨[("x", adapterConst "bayesian" "A"), ("y", adapterConst "margin" "B")]⟩

/-- C2 witness: two sub-classifiers declared in order x, y voting A, B tie,
and the first-declared vote A wins. -/
theorem votingEnsemble_predict_tiebreak_witness :
    ensembleAB.predict [false] = .ok "A" :=
  votingEnsemble_predict_tiebreak ensembleAB [false] ["A", "B"] [] ["B"] "A"
    rfl rfl (by decide) (by decide) (by decide)

/-! ## Ensemble configuration (EnsembleConfig loading) -/

structure ConfigEntry where
  name : String
  algorithm_kind : String
  deriving DecidableEq

/-- Modelled from the spec: the fixed set of algorithm kinds the loader
accepts (a Bayesian model, a margin-based model, a tree-based model). -/
def knownKinds : List String :=
  ["bayesian", "margin", "decision_tree"]

/-- Modelled from the spec: load an ordered sequence of (name, kind) entries,
failing fast with a ConfigError on an unknown algorithm kind. -/
def loadConfig : List ConfigEntry → Except ClassifyError (List (String × ClassifierAdapter))
  | [] => .ok []
  | entry :: rest =>
    if entry.algorithm_kind ∈ knownKinds then
      match loadConfig rest with
      | .error e => .error e
      | .ok subs => .ok ((entry.name, mkAdapter entry.algorithm_kind) :: subs)
    else .error .configError

/-- Modelled from the spec: constructing a Sentiment / VotingEnsemble from the
configuration resource instantiates one untrained adapter per entry,
preserving declared order. -/
def mkSentiment (cfg : List ConfigEntry) : Except ClassifyError VotingEnsemble :=
  match loadConfig cfg with
  | .error e => .error e
  | .ok subs => .ok ⟨subs⟩

/-! ## FeatureSpace (MovieReviews vocabulary construction) -/

namespace FeatureSpace

/-- Modelled from the spec: corpus-wide occurrence count of a word. -/
def wordFreq (corpus : List (List String)) (w : String) : Nat :=
  (corpus.map (fun d => d.count w)).sum

/-- Modelled from the spec: the distinct words of the corpus in first-seen
order, the documented tie-break order. -/
def firstSeen (ws : List String) : List String :=
  ws.foldl (fun acc w => if w ∈ acc then acc else acc ++ [w]) []

/-- Modelled from the spec: stable insertion keeping earlier words ahead of
later words with the same frequency. -/
def insertByFreq (f : String → Nat) (w : String) : List String → List String
  | [] => [w]
  | x :: xs => if f w < f x then x :: insertByFreq f w xs else w :: x :: xs

/-- Modelled from the spec: stable descending sort by corpus frequency. -/
def sortByFreq (f : String → Nat) (ws : List String) : List String :=
  ws.foldr (insertByFreq f) []

/-- Modelled from the spec: the vocabulary is the top-N words by corpus-wide
frequency, ties broken by first-seen order; N beyond the distinct-word count
simply yields every available word. -/
def build (corpus : List (List String)) (n : Nat) : List String :=
  (sortByFreq (wordFreq corpus) (firstSeen corpus.flatten)).take n

end FeatureSpace

/-! ## Driver: build_classifiers.py -/

/-- Command-line flags of the driver (argparse store_true flags). -/
structure Args where
  features : Bool
  report : Bool
  graphs : Bool
  learning : Bool
  deriving DecidableEq

/-- Classifiers handed to report/graph collaborators are heterogeneous: the
voting ensemble itself or one of its sub-classifier adapters. -/
inductive Clf where
  | ensemble (e : VotingEnsemble)
  | adapter (a : ClassifierAdapter)

/-- Embeds the list built for --report: the pair (voting, ensemble) followed
by the sub_classifiers items in insertion order (source lines 170-172). -/
def reportClassifiers (e : VotingEnsemble) : List (String × Clf) :=
  [("voting", Clf.ensemble e)] ++ e.sub_classifiers.map (fun p => (p.1, Clf.adapter p.2))

/-- Embeds the list built inline for --graphs (source lines 177-180). -/
def graphsClassifiers (e : VotingEnsemble) : List (String × Clf) :=
  [("voting", Clf.ensemble e)] ++ e.sub_classifiers.map (fun p => (p.1, Clf.adapter p.2))

/-- Embeds the list built for --learning: only the sub_classifiers items
(source line 187). -/
def learningClassifiers (e : VotingEnsemble) : List (String × ClassifierAdapter) :=
  e.sub_classifiers

/-- Embeds subplots_cols = 4 from do_graphs. -/
def subplots_cols : Nat := 4

/-- Embeds subplots_rows = math.ceil(len(classifiers) / subplots_cols). -/
def subplots_rows (n : Nat) : Nat :=
  (n + subplots_cols - 1) / subplots_cols

/-- Embeds axs.flat: the flattened grid of rows * cols distinct subplot axes,
identified by their position. -/
def axesFlat (rows cols : Nat) : List Nat :=
  List.range (rows * cols)

/-- Embeds graph_data = list(zip(axs.flat, classifiers)) from do_graphs. -/
def graphData (classifiers : List (String × Clf)) : List (Nat × (String × Clf)) :=
  (axesFlat (subplots_rows classifiers.length) subplots_cols).zip classifiers

/-- Embeds the train/test split of the driver: X_train = X[:1900],
y_train = y[:1900], X_test = X[1900:], y_test = y[1900:]. -/
def splitTrainTest (X : List Vec) (y : List Label) :
    List Vec × List Label × List Vec × List Label :=
  (X.take 1900, y.take 1900, X.drop 1900, y.drop 1900)

/-- Observable actions of one driver run, in program order. -/
inductive Event where
  | loadData
  | listFeatures
  | constructEnsemble
  | configFailure
  | getSamples
  | predictOn (name : String)
  | trainClassifiers
  | terminate
  deriving DecidableEq

/-- Embeds do_report: one predict call per (label, clf) entry. -/
def reportEvents (classifiers : List (String × Clf)) : List Event :=
  classifiers.map (fun p => Event.predictOn p.1)

/-- Embeds do_graphs: one predict call per zipped confusion-matrix entry,
then one per entry for the ROC loop. -/
def graphsEvents (classifiers : List (String × Clf)) : List Event :=
  (graphData classifiers).map (fun p => Event.predictOn p.2.1) ++
    classifiers.map (fun p => Event.predictOn p.1)

/-- Embeds the __main__ control flow of build_classifiers.py as the sequence
of observable events of one process run: load MovieReviews, optionally list
features and exit, construct Sentiment from the config, load samples, then
exactly one of report / graphs / learning / training. -/
def mainEvents (args : Args) (cfg : List ConfigEntry) : List Event :=
  Event.loadData ::
    (if args.features then [Event.listFeatures, Event.terminate]
     else
       match mkSentiment cfg with
       | .error _ => [Event.configFailure]
       | .ok e =>
         Event.constructEnsemble :: Event.getSamples ::
           (if args.report then reportEvents (reportClassifiers e) ++ [Event.terminate]
            else if args.graphs then graphsEvents (graphsClassifiers e) ++ [Event.terminate]
            else if args.learning then [Event.terminate]
            else [Event.trainClassifiers]))

/-! ## Claims about the adapters, the split, and the driver lists -/

/-- C4: predict on any adapter whose train has not yet been called fails with
a NotTrainedError instead of returning a default or arbitrary label. -/
theorem predict_untrained_fails (c : ClassifierAdapter) (v : Vec)
    (huntrained : c.trained = none) :
    c.predict v = .error ClassifyError.notTrainedError := by
  rw [ClassifierAdapter.predict, huntrained]

/-- C4 witness: a freshly constructed adapter of any variant rejects predict. -/
theorem predict_untrained_fails_witness :
    (mkAdapter "bayesian").predict [true, false] = .error ClassifyError.notTrainedError :=
  predict_untrained_fails (mkAdapter "bayesian") [true, false] rfl

/-- C8: FeatureSpace.build is deterministic: two runs on the same corpus and
the same N yield the identical vocabulary and the identical word-to-index
assignment. -/
theorem build_deterministic (c1 c2 : List (List String)) (n1 n2 : Nat)
    (hc : c1 = c2) (hn : n1 = n2) :
    FeatureSpace.build c1 n1 = FeatureSpace.build c2 n2 ∧
      ∀ w, (FeatureSpace.build c1 n1).indexOf w = (FeatureSpace.build c2 n2).indexOf w := by
  subst hc
  subst hn
  exact ⟨rfl, fun _ => rfl⟩

/-- C8 witness: two builds over a small concrete corpus agree. -/
theorem build_deterministic_witness :
    FeatureSpace.build [["good", "bad", "good"], ["bad", "boring"]] 2 =
      FeatureSpace.build [["good", "bad", "good"], ["bad", "boring"]] 2 :=
  (build_deterministic [["good", "bad", "good"], ["bad", "boring"]]
    [["good", "bad", "good"], ["bad", "boring"]] 2 2 rfl rfl).1

/-- C6: the driver's 1900-element train/test split loses nothing, keeps order,
and keeps every feature vector paired with its original label. -/
theorem split_preserves_samples (X : List Vec) (y : List Label)
    (hlen : X.length = y.length) :
    (splitTrainTest X y).1 ++ (splitTrainTest X y).2.2.1 = X ∧
      (splitTrainTest X y).2.1 ++ (splitTrainTest X y).2.2.2 = y ∧
      (∀ i, i < 1900 →
        (splitTrainTest X y).1[i]? = X[i]? ∧ (splitTrainTest X y).2.1[i]? = y[i]?) ∧
      (∀ i,
        (splitTrainTest X y).2.2.1[i]? = X[1900 + i]? ∧
          (splitTrainTest X y).2.2.2[i]? = y[1900 + i]?) := by
  refine ⟨List.take_append_drop 1900 X, List.take_append_drop 1900 y, ?_, ?_⟩
  · intro i hi
    exact ⟨List.getElem?_take_of_lt hi, List.getElem?_take_of_lt hi⟩
  · intro i
    exact ⟨List.getElem?_drop X 1900 i, List.getElem?_drop y 1900 i⟩

/-- C6 witness: the split of a concrete sample set keeps both sequences. -/
theorem split_preserves_samples_witness :
    (splitTrainTest [[true], [false]] ["pos", "neg"]).1 ++
        (splitTrainTest [[true], [false]] ["pos", "neg"]).2.2.1 = [[true], [false]] :=
  (split_preserves_samples [[true], [false]] ["pos", "neg"] rfl).1

/-- C5: for --report and --graphs the classifier sequence is exactly the pair
(voting, ensemble) followed by the sub_classifiers items in insertion order,
with no omissions and, when sub-classifier names are unique and distinct from
voting, no duplicate names. -/
theorem report_graph_classifier_sequence (e : VotingEnsemble)
    (hvname : "voting" ∉ e.sub_classifiers.map Prod.fst)
    (hnodup : (e.sub_classifiers.map Prod.fst).Nodup) :
    reportClassifiers e =
        ("voting", Clf.ensemble e) :: e.sub_classifiers.map (fun p => (p.1, Clf.adapter p.2)) ∧
      graphsClassifiers e = reportClassifiers e ∧
      (reportClassifiers e).map Prod.fst = "voting" :: e.sub_classifiers.map Prod.fst ∧
      ((reportClassifiers e).map Prod.fst).Nodup := by
  have hnames : (reportClassifiers e).map Prod.fst =
      "voting" :: e.sub_classifiers.map Prod.fst := by
    simp [reportClassifiers]
  refine ⟨rfl, rfl, hnames, ?_⟩
  rw [hnames]
  exact List.nodup_cons.mpr ⟨hvname, hnodup⟩

def ensembleTwo : VotingEnsemble :=
  ⟨[("naive_bayes", mkAdapter "bayesian"), ("svm", mkAdapter "margin")]⟩

/-- C5 witness: a concrete two-member ensemble yields the voting entry first
and duplicate-free names. -/
theorem report_graph_classifier_sequence_witness :
    (reportClassifiers ensembleTwo).map Prod.fst =
      "voting" :: (ensembleTwo.sub_classifiers).map Prod.fst :=
  (report_graph_classifier_sequence ensembleTwo (by decide) (by decide)).2.2.1

/-- C10: the --learning command hands over only the sub-classifiers in their
preserved order, never the voting ensemble, while --report and --graphs put
the ensemble first. -/
theorem learning_excludes_ensemble (e : VotingEnsemble)
    (hvname : "voting" ∉ e.sub_classifiers.map Prod.fst) :
    learningClassifiers e = e.sub_classifiers ∧
      "voting" ∉ (learningClassifiers e).map Prod.fst ∧
      (reportClassifiers e).map Prod.fst =
        "voting" :: (learningClassifiers e).map Prod.fst ∧
      (graphsClassifiers e).map Prod.fst =
        "voting" :: (learningClassifiers e).map Prod.fst := by
  refine ⟨rfl, hvname, ?_, ?_⟩ <;> simp [reportClassifiers, graphsClassifiers, learningClassifiers]

/-- C10 witness: the concrete two-member ensemble keeps the ensemble out of
the learning-curve list. -/
theorem learning_excludes_ensemble_witness :
    "voting" ∉ (learningClassifiers ensembleTwo).map Prod.fst :=
  (learning_excludes_ensemble ensembleTwo (by decide)).2.1

theorem map_fst_zip_sublist {α β : Type} :
    ∀ (l₁ : List α) (l₂ : List β), ((l₁.zip l₂).map Prod.fst).Sublist l₁
  | [], _ => by simp
  | _ :: _, [] => by simp
  | a :: as, _ :: bs => by
    simp only [List.zip_cons_cons, List.map_cons]
    exact List.Sublist.cons₂ a (map_fst_zip_sublist as bs)

/-- C9: the confusion-matrix grid of do_graphs has 4 columns and ceil(n/4)
rows, the zip pairs every classifier with a subplot axis, the classifier
order survives, and the used axes are pairwise distinct. -/
theorem graphData_pairs_all_classifiers (classifiers : List (String × Clf))
    (hne : classifiers ≠ []) :
    subplots_cols = 4 ∧
      subplots_rows classifiers.length = (classifiers.length + 3) / 4 ∧
      classifiers.length ≤ subplots_cols * subplots_rows classifiers.length ∧
      (graphData classifiers).length = classifiers.length ∧
      (graphData classifiers).map Prod.snd = classifiers ∧
      ((graphData classifiers).map Prod.fst).Nodup := by
  have hcap : classifiers.length ≤
      subplots_rows classifiers.length * subplots_cols := by
    simp only [subplots_rows, subplots_cols]
    omega
  have haxlen : (axesFlat (subplots_rows classifiers.length) subplots_cols).length =
      subplots_rows classifiers.length * subplots_cols := by
    simp [axesFlat]
  refine ⟨rfl, rfl, ?_, ?_, ?_, ?_⟩
  · rw [Nat.mul_comm]
    exact hcap
  · rw [graphData, List.length_zip, haxlen]
    exact Nat.min_eq_right hcap
  · rw [graphData]
    exact List.map_snd_zip _ _ (haxlen ▸ hcap)
  · exact List.Nodup.sublist (map_fst_zip_sublist _ _) (List.nodup_range _)

/-- C9 witness: three classifiers fit a 1 x 4 grid with no classifier
dropped. -/
theorem graphData_pairs_all_classifiers_witness :
    (graphData (reportClassifiers ensembleTwo)).length =
      (reportClassifiers ensembleTwo).length :=
  (graphData_pairs_all_classifiers (reportClassifiers ensembleTwo) (by simp [reportClassifiers])).2.2.2.1

/-! ## Claims about the run order of training and prediction -/

def goodCfg : List ConfigEntry :=
  [⟨"naive_bayes", "bayesian"⟩, ⟨"svm", "margin"⟩]

def reportArgs : Args :=
  ⟨false, true, false, false⟩

/-- C3 counterexample: in a --report run over a well-formed config the driver
calls predict on the voting ensemble although train is never called in that
run, so prediction is not preceded by training in the same process run. -/
theorem report_run_predicts_without_training :
    Event.predictOn "voting" ∈ mainEvents reportArgs goodCfg ∧
      Event.trainClassifiers ∉ mainEvents reportArgs goodCfg := by decide

/-- C3 (amended): a run that trains never predicts and a run that predicts
never trains: train happens only in the default branch, where no report or
graph command runs, so no predict call is ever preceded by a train call in
the same process run. -/
theorem train_and_predict_never_same_run (args : Args) (cfg : List ConfigEntry)
    (htrain : Event.trainClassifiers ∈ mainEvents args cfg) (name : String) :
    Event.predictOn name ∉ mainEvents args cfg := by
  obtain ⟨f, r, g, l⟩ := args
  simp only [mainEvents] at htrain ⊢
  cases hmk : mkSentiment cfg with
  | error err =>
    cases f <;> simp_all
  | ok e =>
    cases f <;> cases r <;> cases g <;> cases l <;>
      simp_all [reportEvents, graphsEvents, List.mem_map]

/-- C3 amended-claim witness: the no-command run trains and never predicts. -/
theorem train_and_predict_never_same_run_witness :
    Event.predictOn "voting" ∉ mainEvents ⟨false, false, false, false⟩ goodCfg :=
  train_and_predict_never_same_run ⟨false, false, false, false⟩ goodCfg
    (by decide) "voting"

theorem loadConfig_error_of_unknown :
    ∀ cfg : List ConfigEntry, (∃ entry ∈ cfg, entry.algorithm_kind ∉ knownKinds) →
      loadConfig cfg = .error ClassifyError.configError := by
  intro cfg
  induction cfg with
  | nil =>
    rintro ⟨w, hw, -⟩
    cases hw
  | cons entry rest ih =>
    rintro ⟨w, hw, hkind⟩
    rcases List.mem_cons.mp hw with hw | hw
    · rw [loadConfig, if_neg (by rw [← hw]; exact hkind)]
    · rw [loadConfig]
      by_cases hk : entry.algorithm_kind ∈ knownKinds
      · rw [if_pos hk, ih ⟨w, hw, hkind⟩]
      · rw [if_neg hk]

/-- C7: ensemble construction happens strictly before any training call of
the driver, and a config naming an unknown algorithm kind fails with a
ConfigError in a run that never reaches training. -/
theorem construction_before_training (args : Args) (cfg : List ConfigEntry) :
    ((∃ entry ∈ cfg, entry.algorithm_kind ∉ knownKinds) →
        mkSentiment cfg = .error ClassifyError.configError ∧
          Event.trainClassifiers ∉ mainEvents args cfg) ∧
      (Event.trainClassifiers ∈ mainEvents args cfg →
        ∃ pre post, mainEvents args cfg = pre ++ Event.constructEnsemble :: post ∧
          Event.trainClassifiers ∈ post) := by
  obtain ⟨f, r, g, l⟩ := args
  constructor
  · intro hunk
    have herr : mkSentiment cfg = .error ClassifyError.configError := by
      rw [mkSentiment, loadConfig_error_of_unknown cfg hunk]
    refine ⟨herr, ?_⟩
    simp only [mainEvents]
    rw [herr]
    cases f <;> simp
  · intro htrain
    rcases hmk : mkSentiment cfg with err | e
    · simp only [mainEvents, hmk] at htrain
      cases f <;> simp_all
    · simp only [mainEvents, hmk] at htrain ⊢
      cases f
      · cases r <;> cases g <;> cases l <;>
          first
            | (simp_all [reportEvents, graphsEvents, List.mem_map]; done)
            | exact ⟨[Event.loadData], [Event.getSamples, Event.trainClassifiers],
                by simp, by simp⟩
      · simp_all

/-- C7 witness: an unknown algorithm kind in the config yields a ConfigError
and a run without any training call. -/
theorem construction_before_training_witness :
    mkSentiment [⟨"naive_bayes", "bayesian"⟩, ⟨"quantum", "qsvm"⟩] =
        .error ClassifyError.configError ∧
      Event.trainClassifiers ∉
        mainEvents ⟨false, false, false, false⟩
          [⟨"naive_bayes", "bayesian"⟩, ⟨"quantum", "qsvm"⟩] :=
  (construction_before_training ⟨false, false, false, false⟩
      [⟨"naive_bayes", "bayesian"⟩, ⟨"quantum", "qsvm"⟩]).1
    ⟨⟨"quantum", "qsvm"⟩, by decide, by decide⟩

end TwitterML
